import Mathlib

/-!
Verification of the training-loop and loss-composition core of the optical-flow
training program (src/code/main.py). Scalar tensor values are modelled as exact
rationals; per the project description, floating-point bit-exactness is a
non-goal, so the additive and multiplicative structure of the loss composition
is what is verified here. The four loss terms, the endpoint-error function and
the model are external collaborators and are taken as uninterpreted function
parameters; the control flow around them (the unflow batch computation, the
multi-scale loops, the epoch loop, the checkpoint logic, the validation loop
and the solver setup) is translated directly from main.py.
-/

namespace OpticalFlow

/-- A flow field, flattened to a list of rational components (a 2-channel
tensor of pixel displacements). -/
abbrev Flow : Type := List ℚ

/-- An image, flattened to a list of rational channel values. -/
abbrev Image : Type := List ℚ

/-- Elementwise scaling of a flow field; the code writes
`pred_fw[i] * args.div_flow` (main.py lines 342-343 and analogues). -/
def scaleFlow (d : ℚ) (f : Flow) : Flow := f.map (fun x => x * d)

/-- Channel concatenation `torch.cat((a, b), 1)` of two images
(main.py lines 329 and 331). -/
def concatChannels (a b : Image) : Image := a ++ b

/-- The loss configuration dictionary built by `get_default_config`
(main.py lines 96-119): boolean switches for each loss term, per-term
multiscale switches, and per-term weight and exponent parameters. -/
structure LossConfig where
  sl_weight : ℚ
  pl_weight : ℚ
  fb_weight : ℚ
  sl_exp : ℚ
  pl_exp : ℚ
  fb_exp : ℚ
  weighted_sl_loss : Bool
  epochs : ℕ
  multiscale_sl_loss : Bool
  multiscale_pl_loss : Bool
  multiscale_census_loss : Bool
  multiscale_ssim_loss : Bool
  multiscale_fb_loss : Bool
  use_l1_loss : Bool
  unflow : Bool
  sl : Bool
  census : Bool
  ssim : Bool
  fb : Bool

/-- The default configuration values of `get_default_config`
(main.py lines 96-119), with the float literals written as exact rationals. -/
def get_default_config : LossConfig :=
  { sl_weight := 1/500
    pl_weight := 1
    fb_weight := 1
    sl_exp := 19/50
    pl_exp := 1/4
    fb_exp := 9/20
    weighted_sl_loss := true
    epochs := 1000
    multiscale_sl_loss := true
    multiscale_pl_loss := true
    multiscale_census_loss := true
    multiscale_ssim_loss := true
    multiscale_fb_loss := true
    use_l1_loss := false
    unflow := true
    sl := true
    census := true
    ssim := false
    fb := false }

/-- The external loss-term collaborators imported from `own_loss` and
`multiscaleloss` (main.py lines 15-16). Their bodies live outside the
training-loop core, so they are uninterpreted parameters here; only their
call shapes are fixed by main.py. `ternary_loss` additionally takes the
`max_distance` argument, and `realEPE` the `sparse` flag. -/
structure LossTerms where
  ternary_loss : Image → Image → Flow → ℕ → ℚ
  smoothness_loss : Flow → LossConfig → ℚ
  ssim : Image → Image → Flow → ℚ
  forward_backward_loss : Image → Image → Flow → Flow → LossConfig → ℚ
  realEPE : Flow → Flow → Bool → ℚ

/-- One per-term scale loop of `train` (main.py lines 341-349 and its three
analogues at 355-363, 369-375, 381-388): starting from the accumulator `0`,
for each level compute the term, add it to the accumulator, append its
detached scalar to the diagnostic list, and break after the first level when
the multiscale switch for the term is off. Returns the accumulated loss and
the diagnostic list. -/
def levelLoop {α : Type} (f : α → ℚ) (multiscale : Bool) : List α → ℚ × List ℚ
  | [] => (0, [])
  | l :: rest =>
    let v := f l
    if multiscale then
      let r := levelLoop f multiscale rest
      (v + r.1, v :: r.2)
    else
      (v, [v])

/-- The Multi-Scale Loss Combiner: a loss term applied across a Flow Pyramid,
each level pre-scaled by `div_flow` before the term is evaluated, with the
per-term multiscale switch deciding whether to sum all levels or stop after
the finest (main.py lines 341-349 shape, single-pyramid form as in the ssim
loop at lines 369-375). -/
def multiScaleCombiner (term : Flow → ℚ) (div_flow : ℚ) (multiscale : Bool)
    (pyramid : List Flow) : ℚ × List ℚ :=
  levelLoop (fun f => term (scaleFlow div_flow f)) multiscale pyramid

/-- The census block of the unflow branch (main.py lines 336-349): zero when
`the census switch of the config dict` is off, otherwise the level loop over both pyramids with
`ternary_loss(im2, im1, flow_fw, max_distance=1) +
 ternary_loss(im1, im2, flow_bw, max_distance=1)` per level. -/
def census_loss_of (t : LossTerms) (cfg : LossConfig) (div_flow : ℚ)
    (im1 im2 : Image) (pred_fw pred_bw : List Flow) : ℚ × List ℚ :=
  if cfg.census then
    levelLoop
      (fun p =>
        t.ternary_loss im2 im1 (scaleFlow div_flow p.1) 1 +
        t.ternary_loss im1 im2 (scaleFlow div_flow p.2) 1)
      cfg.multiscale_census_loss (pred_fw.zip pred_bw)
  else (0, [])

/-- The smoothness block of the unflow branch (main.py lines 352-364): zero
when `the sl switch of the config dict` is off, otherwise
`smoothness_loss(flow_fw, config) + smoothness_loss(flow_bw, config)`
per level. -/
def sl_loss_of (t : LossTerms) (cfg : LossConfig) (div_flow : ℚ)
    (pred_fw pred_bw : List Flow) : ℚ × List ℚ :=
  if cfg.sl then
    levelLoop
      (fun p =>
        t.smoothness_loss (scaleFlow div_flow p.1) cfg +
        t.smoothness_loss (scaleFlow div_flow p.2) cfg)
      cfg.multiscale_sl_loss (pred_fw.zip pred_bw)
  else (0, [])

/-- The ssim block of the unflow branch (main.py lines 366-376): zero when
`the ssim switch of the config dict` is off, otherwise `ssim(im1, im2, flow_bw)` per backward
pyramid level. -/
def ssim_loss_of (t : LossTerms) (cfg : LossConfig) (div_flow : ℚ)
    (im1 im2 : Image) (pred_bw : List Flow) : ℚ × List ℚ :=
  if cfg.ssim then
    levelLoop (fun f => t.ssim im1 im2 (scaleFlow div_flow f))
      cfg.multiscale_ssim_loss pred_bw
  else (0, [])

/-- The forward-backward block of the unflow branch (main.py lines 378-389):
zero when `the fb switch of the config dict` is off, otherwise
`forward_backward_loss(im1, im2, flow_fw, flow_bw, config)` per level. -/
def fb_loss_of (t : LossTerms) (cfg : LossConfig) (div_flow : ℚ)
    (im1 im2 : Image) (pred_fw pred_bw : List Flow) : ℚ × List ℚ :=
  if cfg.fb then
    levelLoop
      (fun p =>
        t.forward_backward_loss im1 im2
          (scaleFlow div_flow p.1) (scaleFlow div_flow p.2) cfg)
      cfg.multiscale_fb_loss (pred_fw.zip pred_bw)
  else (0, [])

/-- The combined optimized loss of the unflow branch, main.py line 398:
`loss = census_loss + sl_loss + ssim_loss + 0.001*fb_loss`. -/
def unflow_combined_loss (t : LossTerms) (cfg : LossConfig) (div_flow : ℚ)
    (im1 im2 : Image) (pred_fw pred_bw : List Flow) : ℚ :=
  (census_loss_of t cfg div_flow im1 im2 pred_fw pred_bw).1 +
  (sl_loss_of t cfg div_flow pred_fw pred_bw).1 +
  (ssim_loss_of t cfg div_flow im1 im2 pred_bw).1 +
  (1/1000 : ℚ) * (fb_loss_of t cfg div_flow im1 im2 pred_fw pred_bw).1

/-- The Bidirectional Predictor Driver (main.py lines 327-332):
`pred_fw = model(torch.cat((im1, im2), 1))`,
`pred_bw = model(torch.cat((im2, im1), 1))`. The natural-number argument
counts model invocations so far; each of the two call sites adds one. -/
def bidirectional_predict (model : Image → List Flow) (im1 im2 : Image)
    (modelCalls : ℕ) : (List Flow × List Flow) × ℕ :=
  let pred_fw := model (concatChannels im1 im2)
  let pred_bw := model (concatChannels im2 im1)
  ((pred_fw, pred_bw), modelCalls + 1 + 1)

/-- One unflow training batch (main.py lines 323-405 without the optimizer
step): the two forward passes, the combined optimized loss of line 398, and
the endpoint-error diagnostic of lines 401-403,
`flow2_EPE = args.div_flow * realEPE(pred_bw[0], target, sparse)`.
Returns (optimized loss, EPE diagnostic). -/
def unflow_batch (t : LossTerms) (cfg : LossConfig) (div_flow : ℚ)
    (sparse : Bool) (model : Image → List Flow)
    (im1 im2 : Image) (target : Flow) : ℚ × ℚ :=
  let pred_fw := model (concatChannels im1 im2)
  let pred_bw := model (concatChannels im2 im1)
  let loss := unflow_combined_loss t cfg div_flow im1 im2 pred_fw pred_bw
  let flow := pred_bw.headD []
  let flow2_EPE := div_flow * t.realEPE flow target sparse
  (loss, flow2_EPE)

/-- The per-epoch cap computed at main.py line 272:
`epoch_size = len(train_loader) if args.epoch_size == 0
              else min(len(train_loader), args.epoch_size)`. -/
def epoch_size_of (argsEpochSize numBatches : ℕ) : ℕ :=
  if argsEpochSize = 0 then numBatches else min numBatches argsEpochSize

/-- The batch-loop skeleton shared verbatim by the three training branches of
`train` (main.py lines 281-317, 323-422 and 429-502): for each batch yielded
by the enumerated loader, process it, run `n_iter += 1` (lines 315, 420, 500)
and then break when the enumeration index has reached `epoch_size`
(`if i >= epoch_size: break`, lines 316-317, 421-422, 501-502). The arguments
are the current enumeration index, the number of batches the loader can still
yield, and the current `n_iter`; the result is the final `n_iter` paired with
the number of batches processed from this point on. -/
def train_batch_loop (epoch_size : ℕ) : ℕ → ℕ → ℕ → ℕ × ℕ
  | _, 0, n_iter => (n_iter, 0)
  | it, rem + 1, n_iter =>
    let n := n_iter + 1
    if epoch_size ≤ it then (n, 1)
    else
      let r := train_batch_loop epoch_size (it + 1) rem n
      (r.1, r.2 + 1)

/-- The three training variants selected by the flags at the tops of the
branches of `train` (main.py lines 279, 320, 427): the legacy supervised
branch, the bidirectional unflow branch, and the single-direction
self-supervised branch. -/
inductive TrainVariant : Type
  | legacy : TrainVariant
  | unflow : TrainVariant
  | selfSupervised : TrainVariant

/-- The effect of one `train` call on the global `n_iter`, for each of the
three variants; all three branches carry the identical index/cap/increment
skeleton `train_batch_loop` around their per-batch bodies. Returns the final
`n_iter` and the number of batches processed in the epoch. -/
def train_n_iter (v : TrainVariant) (argsEpochSize numBatches n_iter : ℕ) :
    ℕ × ℕ :=
  let epoch_size := epoch_size_of argsEpochSize numBatches
  match v with
  | TrainVariant.legacy => train_batch_loop epoch_size 0 numBatches n_iter
  | TrainVariant.unflow => train_batch_loop epoch_size 0 numBatches n_iter
  | TrainVariant.selfSupervised => train_batch_loop epoch_size 0 numBatches n_iter

/-- Number of batches one epoch of `train` processes, as a function of the
configured `args.epoch_size` and of the number of batches the loader holds. -/
def batches_processed (argsEpochSize numBatches : ℕ) : ℕ :=
  (train_batch_loop (epoch_size_of argsEpochSize numBatches) 0 numBatches 0).2

/-- The initial value of the global iteration counter, main.py line 88:
`n_iter = 0`. -/
def n_iter_start : ℕ := 0

/-- The accumulation of `n_iter` over a whole run: one `train` call per epoch,
each epoch seeing the stated number of loader batches (main.py lines 235-238;
the `validate` call between epochs never mentions `n_iter`, whose only writes
are the three `n_iter += 1` lines inside `train`). -/
def run_epochs_n_iter (v : TrainVariant) (argsEpochSize : ℕ) :
    List ℕ → ℕ → ℕ
  | [], n_iter => n_iter
  | nb :: rest, n_iter =>
    run_epochs_n_iter v argsEpochSize rest (train_n_iter v argsEpochSize nb n_iter).1

/-- The initial value of the global best-seen validation EPE, main.py line 87:
`best_EPE = -1`. -/
def best_EPE_start : ℚ := -1

/-- The checkpoint record assembled at main.py lines 253-259. -/
structure CheckpointRecord where
  epoch : ℕ
  arch : String
  state_dict : List ℚ
  best_EPE : ℚ
  div_flow : ℚ

/-- The per-epoch checkpoint bookkeeping of `main` (main.py lines 248-259):
`if best_EPE < 0: best_EPE = EPE`, `is_best = EPE < best_EPE`,
`best_EPE = min(EPE, best_EPE)`, then the record passed to `save_checkpoint`.
Returns the updated `best_EPE`, the `is_best` flag and the record. -/
def checkpoint_step (arch : String) (state_dict : List ℚ) (div_flow : ℚ)
    (epoch : ℕ) (best_EPE EPE : ℚ) : ℚ × (Bool × CheckpointRecord) :=
  let best1 := if best_EPE < 0 then EPE else best_EPE
  let is_best := decide (EPE < best1)
  let best2 := min EPE best1
  (best2,
   (is_best,
    { epoch := epoch + 1, arch := arch, state_dict := state_dict,
      best_EPE := best2, div_flow := div_flow }))

/-- Modelled from the spec: `util.save_checkpoint` is not under `src/`; per
the Checkpoint sink contract in the spec, given a record and an `is_best`
flag it persists the record and, if best, a duplicate marked best. The sink
is modelled as the list of (record, is_best) persist events it has seen. -/
def save_checkpoint (saved : List (CheckpointRecord × Bool))
    (rec : CheckpointRecord) (is_best : Bool) :
    List (CheckpointRecord × Bool) :=
  saved ++ [(rec, is_best)]

/-- The epoch-end checkpoint loop of `main` (main.py lines 235-259) restricted
to its checkpoint state: fold `checkpoint_step` and the `save_checkpoint`
call over the successive per-epoch validation EPE values. Returns the final
`best_EPE` and the sink contents. -/
def checkpoint_run (arch : String) (state_dict : List ℚ) (div_flow : ℚ) :
    ℕ → ℚ → List ℚ → List (CheckpointRecord × Bool) →
    ℚ × List (CheckpointRecord × Bool)
  | _, best_EPE, [], saved => (best_EPE, saved)
  | epoch, best_EPE, EPE :: rest, saved =>
    let s := checkpoint_step arch state_dict div_flow epoch best_EPE EPE
    checkpoint_run arch state_dict div_flow (epoch + 1) s.1 rest
      (save_checkpoint saved s.2.2 s.2.1)

/-- Helper for stating the amended checkpoint claim: the `is_best` flags the
sink should see from a given running minimum of the earlier epochs onwards —
an epoch is marked best exactly when its EPE is strictly below the minimum of
all earlier EPEs. -/
def best_flags_from (prevMin : ℚ) : List ℚ → List Bool
  | [] => []
  | e :: rest => decide (e < prevMin) :: best_flags_from (min e prevMin) rest

/-- Helper for stating the amended checkpoint claim: the full `is_best` flag
sequence — the first epoch is never marked best (its EPE is adopted as the
starting best), and each later epoch is marked best exactly when it improves
on the minimum of all earlier epochs. -/
def best_flags_spec : List ℚ → List Bool
  | [] => []
  | e :: rest => false :: best_flags_from e rest

/-- A run state for the validation claims: the process-wide autograd mode
(enabled at process start), the model parameters and the optimizer internal
state. -/
structure RunState where
  gradEnabled : Bool
  params : List ℚ
  optState : List ℚ

/-- The run state at program start: autograd defaults to enabled, parameters
and optimizer state as produced by model and optimizer construction. -/
def initial_run_state (params optState : List ℚ) : RunState :=
  { gradEnabled := true, params := params, optState := optState }

/-- The `with torch.no_grad():` context manager: run the body with the grad
mode off and restore the previous mode afterwards. -/
def with_no_grad {α : Type} (body : RunState → α × RunState) (s : RunState) :
    α × RunState :=
  let prev := s.gradEnabled
  let r := body { s with gradEnabled := false }
  (r.1, { r.2 with gradEnabled := prev })

/-- Modelled from the spec: `util.AverageMeter` (the Metric Accumulator) is
not under `src/`; per the spec it is a (sum, count) pair whose running
average after recording values with counts is the count-weighted mean. -/
structure AverageMeter where
  sum : ℚ
  count : ℕ

/-- Modelled from the spec: a fresh Metric Accumulator holds sum 0, count 0. -/
def AverageMeter.start : AverageMeter := { sum := 0, count := 0 }

/-- Modelled from the spec: recording a value with a count adds the weighted
value to the sum and the count to the count. -/
def AverageMeter.update (m : AverageMeter) (v : ℚ) (n : ℕ) : AverageMeter :=
  { sum := m.sum + v * (n : ℚ), count := m.count + n }

/-- Modelled from the spec: the running average is the sum divided by the
count (0 while nothing was recorded, rational division by zero being 0). -/
def AverageMeter.avg (m : AverageMeter) : ℚ := m.sum / (m.count : ℚ)

/-- Shallow embedding of `validate` (main.py lines 506-543): iterate the
held-out loader, compute `flow2_EPE = args.div_flow * realEPE(output, target,
sparse)` per batch (line 521) and feed it to the EPE meter with the batch
size (line 523), and return the meter average (line 543). The body reads the
parameters through the model call but contains no assignment to them, never
receives the optimizer, and never calls backward or an optimizer step, so the
run state passes through unchanged; the Bool returned next to the mean EPE
records the autograd mode the loop ran under (the function itself never
toggles that mode). The loader yields (input image, target flow, batch size)
triples; in eval mode the model collaborator returns its finest flow. -/
def validate (realEPE : Flow → Flow → Bool → ℚ) (div_flow : ℚ) (sparse : Bool)
    (model : List ℚ → Image → Flow) (val_loader : List (Image × Flow × ℕ))
    (s : RunState) : (ℚ × Bool) × RunState :=
  let meter := val_loader.foldl
    (fun m b =>
      m.update (div_flow * realEPE (model s.params b.1) b.2.1 sparse) b.2.2)
    AverageMeter.start
  ((meter.avg, s.gradEnabled), s)

/-- The evaluate-only call site of `validate` (main.py lines 227-229):
`if args.evaluate: best_EPE = validate(val_loader, model, 0, output_writers)`
— the call is NOT wrapped in `torch.no_grad()`. -/
def main_evaluate_validate (realEPE : Flow → Flow → Bool → ℚ) (div_flow : ℚ)
    (sparse : Bool) (model : List ℚ → Image → Flow)
    (val_loader : List (Image × Flow × ℕ)) (s : RunState) :
    (ℚ × Bool) × RunState :=
  validate realEPE div_flow sparse model val_loader s

/-- The epoch-loop call site of `validate` (main.py lines 244-246):
`with torch.no_grad(): EPE = validate(val_loader, model, epoch,
output_writers)`. -/
def main_epoch_validate (realEPE : Flow → Flow → Bool → ℚ) (div_flow : ℚ)
    (sparse : Bool) (model : List ℚ → Image → Flow)
    (val_loader : List (Image × Flow × ℕ)) (s : RunState) :
    (ℚ × Bool) × RunState :=
  with_no_grad (validate realEPE div_flow sparse model val_loader) s

/-- The two solver algorithms accepted by the run configuration
(main.py line 45: the choices list holding adam and sgd). -/
inductive SolverKind : Type
  | adam : SolverKind
  | sgd : SolverKind

/-- The optimizer constructed at main.py lines 218-225, with its two
differentiated weight-decay parameter groups. -/
structure Optimizer where
  kind : SolverKind
  lr : ℚ
  momentum : ℚ
  beta : ℚ
  bias_decay : ℚ
  weight_decay : ℚ

/-- The accepted solver names (main.py line 45 and the assert at line 216). -/
def solver_choices : List String := ["adam", "sgd"]

/-- The solver validation and optimizer construction of `main` (main.py lines
216-225): the assert that args.solver is adam or sgd, then the adam or sgd
optimizer is built over the bias/weight parameter groups. A failing assert is
an error result. -/
def build_optimizer (solver : String) (lr momentum beta bias_decay weight_decay : ℚ) :
    Except String Optimizer :=
  if solver ∈ solver_choices then
    if solver = "adam" then
      Except.ok
        { kind := SolverKind.adam, lr := lr, momentum := momentum,
          beta := beta, bias_decay := bias_decay, weight_decay := weight_decay }
    else
      Except.ok
        { kind := SolverKind.sgd, lr := lr, momentum := momentum,
          beta := beta, bias_decay := bias_decay, weight_decay := weight_decay }
  else Except.error "AssertionError: args.solver not in [adam, sgd]"

/-- The setup-then-train order of `main` (main.py lines 216-238): the solver
is validated and the optimizer constructed before the epoch loop starts, and
a failed validation aborts the run before any training iteration executes.
On success the result carries the constructed optimizer and the total number
of training batch iterations the epoch loop executes. -/
def main_training_run (solver : String)
    (lr momentum beta bias_decay weight_decay : ℚ)
    (argsEpochSize : ℕ) (epochBatches : List ℕ) :
    Except String (Optimizer × ℕ) :=
  match build_optimizer solver lr momentum beta bias_decay weight_decay with
  | Except.error e => Except.error e
  | Except.ok opt =>
      Except.ok (opt, (epochBatches.map (batches_processed argsEpochSize)).sum)

/-- A concrete loss-term bundle used by the closed witness statements. -/
def witnessTerms : LossTerms :=
  { ternary_loss := fun _ _ f _ => f.sum
    smoothness_loss := fun f _ => f.sum
    ssim := fun _ _ f => f.sum
    forward_backward_loss := fun _ _ f g _ => f.sum + g.sum
    realEPE := fun f _ _ => f.sum }

/-- A concrete configuration with every loss term disabled, used by the
closed witness statements. -/
def cfgAllOff : LossConfig :=
  { sl_weight := 0, pl_weight := 0, fb_weight := 0, sl_exp := 0, pl_exp := 0,
    fb_exp := 0, weighted_sl_loss := false, epochs := 0,
    multiscale_sl_loss := false, multiscale_pl_loss := false,
    multiscale_census_loss := false, multiscale_ssim_loss := false,
    multiscale_fb_loss := false, use_l1_loss := false, unflow := true,
    sl := false, census := false, ssim := false, fb := false }

/-- Helper: with the multiscale switch on, the per-term scale loop returns
the sum of the per-level values and the full per-level list. -/
theorem levelLoop_true {α : Type} (f : α → ℚ) (l : List α) :
    levelLoop f true l = ((l.map f).sum, l.map f) := by
  induction l with
  | nil => rfl
  | cons a rest ih => simp [levelLoop, ih]

/-- C4: for every Flow Pyramid of length at least one, the Multi-Scale Loss
Combiner with the multiscale switch off equals the Loss Term evaluated only
on pyramid level 0 (the finest level, pre-scaled by div_flow), independently
of the pyramid length. -/
theorem multiscale_false_finest_only (term : Flow → ℚ) (d : ℚ)
    (pyr : List Flow) (h : pyr ≠ []) :
    (multiScaleCombiner term d false pyr).1 = term (scaleFlow d (pyr.head h)) := by
  cases pyr with
  | nil => exact absurd rfl h
  | cons f rest => rfl

/-- Witness for C4 at a concrete two-level pyramid. -/
theorem multiscale_false_finest_only_witness :
    (multiScaleCombiner (fun f => f.sum) 20 false [[1, 2], [3, 4]]).1
      = (fun f => f.sum)
          (scaleFlow 20 (([[1, 2], [3, 4]] : List Flow).head (List.cons_ne_nil _ _))) :=
  multiscale_false_finest_only (fun f => f.sum) 20 [[1, 2], [3, 4]]
    (List.cons_ne_nil _ _)

/-- C5: for every Flow Pyramid, the Multi-Scale Loss Combiner with the
multiscale switch on returns the exact sum over all pyramid levels of the
Loss Term applied to the div_flow-scaled level flow, and its diagnostic list
holds each level value. -/
theorem multiscale_true_sum_all_levels (term : Flow → ℚ) (d : ℚ)
    (pyr : List Flow) :
    (multiScaleCombiner term d true pyr).1
        = (pyr.map (fun f => term (scaleFlow d f))).sum ∧
    (multiScaleCombiner term d true pyr).2
        = pyr.map (fun f => term (scaleFlow d f)) := by
  unfold multiScaleCombiner
  rw [levelLoop_true]
  exact ⟨rfl, rfl⟩

/-- C1: in the unflow branch, the combined optimized loss of main.py line 398
equals census_loss + sl_loss + ssim_loss + 0.001 * fb_loss, where each block
disabled by the configuration contributes the additive zero instead of being
skipped. -/
theorem unflow_loss_additive (t : LossTerms) (cfg : LossConfig) (d : ℚ)
    (im1 im2 : Image) (pfw pbw : List Flow) :
    unflow_combined_loss t cfg d im1 im2 pfw pbw =
      (census_loss_of t cfg d im1 im2 pfw pbw).1 +
      (sl_loss_of t cfg d pfw pbw).1 +
      (ssim_loss_of t cfg d im1 im2 pbw).1 +
      (1/1000 : ℚ) * (fb_loss_of t cfg d im1 im2 pfw pbw).1 ∧
    (cfg.census = false → (census_loss_of t cfg d im1 im2 pfw pbw).1 = 0) ∧
    (cfg.sl = false → (sl_loss_of t cfg d pfw pbw).1 = 0) ∧
    (cfg.ssim = false → (ssim_loss_of t cfg d im1 im2 pbw).1 = 0) ∧
    (cfg.fb = false → (fb_loss_of t cfg d im1 im2 pfw pbw).1 = 0) := by
  refine ⟨rfl, fun h => ?_, fun h => ?_, fun h => ?_, fun h => ?_⟩
  · simp [census_loss_of, h]
  · simp [sl_loss_of, h]
  · simp [ssim_loss_of, h]
  · simp [fb_loss_of, h]

/-- Witness for C1 at a configuration with all four loss terms disabled. -/
theorem unflow_loss_additive_witness :
    unflow_combined_loss witnessTerms cfgAllOff 20 [1] [2] [[1]] [[2]] =
      (census_loss_of witnessTerms cfgAllOff 20 [1] [2] [[1]] [[2]]).1 +
      (sl_loss_of witnessTerms cfgAllOff 20 [[1]] [[2]]).1 +
      (ssim_loss_of witnessTerms cfgAllOff 20 [1] [2] [[2]]).1 +
      (1/1000 : ℚ) * (fb_loss_of witnessTerms cfgAllOff 20 [1] [2] [[1]] [[2]]).1 ∧
    (census_loss_of witnessTerms cfgAllOff 20 [1] [2] [[1]] [[2]]).1 = 0 ∧
    (sl_loss_of witnessTerms cfgAllOff 20 [[1]] [[2]]).1 = 0 ∧
    (ssim_loss_of witnessTerms cfgAllOff 20 [1] [2] [[2]]).1 = 0 ∧
    (fb_loss_of witnessTerms cfgAllOff 20 [1] [2] [[1]] [[2]]).1 = 0 :=
  have h := unflow_loss_additive witnessTerms cfgAllOff 20 [1] [2] [[1]] [[2]]
  ⟨h.1, h.2.1 rfl, h.2.2.1 rfl, h.2.2.2.1 rfl, h.2.2.2.2 rfl⟩

/-- C6: the Bidirectional Predictor Driver produces
pred_fw = model(concat(im1, im2)) and pred_bw = model(concat(im2, im1)),
invoking the model exactly twice per batch. -/
theorem bidirectional_two_forward_passes (model : Image → List Flow)
    (im1 im2 : Image) (calls : ℕ) :
    (bidirectional_predict model im1 im2 calls).1.1
        = model (concatChannels im1 im2) ∧
    (bidirectional_predict model im1 im2 calls).1.2
        = model (concatChannels im2 im1) ∧
    (bidirectional_predict model im1 im2 calls).2 = calls + 2 :=
  ⟨rfl, rfl, rfl⟩

/-- Helper: on a nonempty list, `headD` agrees with `head`. -/
theorem headD_eq_head {α : Type} (l : List α) (d : α) (h : l ≠ []) :
    l.headD d = l.head h := by
  cases l with
  | nil => exact absurd rfl h
  | cons a t => rfl

/-- C7: in the unflow branch, the endpoint-error diagnostic equals div_flow
times realEPE of pred_bw[0] (the finest backward prediction) against the
target, and the optimized combined loss depends neither on the target nor on
the realEPE collaborator — the diagnostic is monitoring only, not a summand
of the loss that is backward-propagated. -/
theorem epe_diagnostic_monitor_only (t : LossTerms) (cfg : LossConfig)
    (d : ℚ) (sp : Bool) (model : Image → List Flow) (im1 im2 : Image)
    (target : Flow) (h : model (concatChannels im2 im1) ≠ []) :
    (unflow_batch t cfg d sp model im1 im2 target).2
        = d * t.realEPE ((model (concatChannels im2 im1)).head h) target sp ∧
    (∀ target2 : Flow,
      (unflow_batch t cfg d sp model im1 im2 target2).1
        = (unflow_batch t cfg d sp model im1 im2 target).1) ∧
    (∀ re : Flow → Flow → Bool → ℚ,
      (unflow_batch { t with realEPE := re } cfg d sp model im1 im2 target).1
        = (unflow_batch t cfg d sp model im1 im2 target).1) := by
  refine ⟨?_, fun _ => rfl, fun _ => rfl⟩
  show d * t.realEPE ((model (concatChannels im2 im1)).headD []) target sp = _
  rw [headD_eq_head (model (concatChannels im2 im1)) [] h]

/-- Witness for C7 at a concrete model returning a one-level pyramid. -/
theorem epe_diagnostic_monitor_only_witness :
    (unflow_batch witnessTerms cfgAllOff 20 false (fun _ => [[1, 1]])
        [1] [2] [3, 3]).2
      = 20 * witnessTerms.realEPE
          (((fun (_ : Image) => ([[1, 1]] : List Flow)) (concatChannels [2] [1])).head
            (List.cons_ne_nil _ _)) [3, 3] false ∧
    (∀ target2 : Flow,
      (unflow_batch witnessTerms cfgAllOff 20 false (fun _ => [[1, 1]])
          [1] [2] target2).1
        = (unflow_batch witnessTerms cfgAllOff 20 false (fun _ => [[1, 1]])
            [1] [2] [3, 3]).1) ∧
    (∀ re : Flow → Flow → Bool → ℚ,
      (unflow_batch { witnessTerms with realEPE := re } cfgAllOff 20 false
          (fun _ => [[1, 1]]) [1] [2] [3, 3]).1
        = (unflow_batch witnessTerms cfgAllOff 20 false (fun _ => [[1, 1]])
            [1] [2] [3, 3]).1) :=
  epe_diagnostic_monitor_only witnessTerms cfgAllOff 20 false
    (fun _ => [[1, 1]]) [1] [2] [3, 3] (List.cons_ne_nil _ _)

/-- C8 (amended form): the epoch-loop invocation of the Validation Loop runs
under `torch.no_grad()` and so observes gradient tracking disabled, while the
evaluate-only invocation observes whatever the ambient mode is (the enabled
process default at start); both invocations leave the run state — model
parameters, optimizer state and grad mode — unchanged, compute only the
count-weighted mean endpoint error, and perform no optimization step. -/
theorem validate_frame_and_grad (re : Flow → Flow → Bool → ℚ) (dv : ℚ)
    (sp : Bool) (model : List ℚ → Image → Flow)
    (vl : List (Image × Flow × ℕ)) (s : RunState) :
    (main_epoch_validate re dv sp model vl s).1.2 = false ∧
    (main_epoch_validate re dv sp model vl s).2 = s ∧
    (main_evaluate_validate re dv sp model vl s).1.2 = s.gradEnabled ∧
    (main_evaluate_validate re dv sp model vl s).2 = s ∧
    (main_evaluate_validate re dv sp model vl
        (initial_run_state s.params s.optState)).1.2 = true ∧
    (main_epoch_validate re dv sp model vl s).1.1
        = (vl.foldl
            (fun m b => m.update (dv * re (model s.params b.1) b.2.1 sp) b.2.2)
            AverageMeter.start).avg ∧
    (main_evaluate_validate re dv sp model vl s).1.1
        = (vl.foldl
            (fun m b => m.update (dv * re (model s.params b.1) b.2.1 sp) b.2.2)
            AverageMeter.start).avg :=
  ⟨rfl, rfl, rfl, rfl, rfl, rfl, rfl⟩

/-- Counterexample to C8 as stated: in the evaluate-only mode entered via the
evaluate flag (main.py lines 227-229), `validate` is not wrapped in
`torch.no_grad()`, so starting from the process-default run state the loop
observes gradient tracking still enabled, not disabled. -/
theorem evaluate_mode_grad_enabled :
    (main_evaluate_validate (fun _ _ _ => 0) 20 false (fun _ _ => []) []
        (initial_run_state [] [])).1.2 = true :=
  rfl

/-- C9: a run configuration whose solver name is outside adam/sgd fails the
assert before any training iteration executes (the run result is an error
carrying no executed iterations), while a valid solver name yields the
corresponding constructed optimizer together with the training iterations of
the epoch loop that follows it. -/
theorem solver_fail_fast (solver : String)
    (lr m b bd wd : ℚ) (aes : ℕ) (ebs : List ℕ) :
    (solver ∉ solver_choices →
      main_training_run solver lr m b bd wd aes ebs
        = Except.error "AssertionError: args.solver not in [adam, sgd]") ∧
    (solver = "adam" →
      main_training_run solver lr m b bd wd aes ebs
        = Except.ok
            ({ kind := SolverKind.adam, lr := lr, momentum := m, beta := b,
               bias_decay := bd, weight_decay := wd },
             (ebs.map (batches_processed aes)).sum)) ∧
    (solver = "sgd" →
      main_training_run solver lr m b bd wd aes ebs
        = Except.ok
            ({ kind := SolverKind.sgd, lr := lr, momentum := m, beta := b,
               bias_decay := bd, weight_decay := wd },
             (ebs.map (batches_processed aes)).sum)) := by
  refine ⟨fun h => ?_, fun h => ?_, fun h => ?_⟩
  · simp [main_training_run, build_optimizer, h]
  · subst h
    simp [main_training_run, build_optimizer, solver_choices]
  · subst h
    simp [main_training_run, build_optimizer, solver_choices]

/-- Witness for C9 at the rejected solver name lbfgs and at the two accepted
names. -/
theorem solver_fail_fast_witness :
    main_training_run "lbfgs" 1 (9/10) (999/1000) 0 (1/2500) 1000 [3]
        = Except.error "AssertionError: args.solver not in [adam, sgd]" ∧
    main_training_run "adam" 1 (9/10) (999/1000) 0 (1/2500) 1000 [3]
        = Except.ok
            ({ kind := SolverKind.adam, lr := 1, momentum := 9/10,
               beta := 999/1000, bias_decay := 0, weight_decay := 1/2500 },
             (([3] : List ℕ).map (batches_processed 1000)).sum) ∧
    main_training_run "sgd" 1 (9/10) (999/1000) 0 (1/2500) 1000 [3]
        = Except.ok
            ({ kind := SolverKind.sgd, lr := 1, momentum := 9/10,
               beta := 999/1000, bias_decay := 0, weight_decay := 1/2500 },
             (([3] : List ℕ).map (batches_processed 1000)).sum) :=
  ⟨(solver_fail_fast "lbfgs" 1 (9/10) (999/1000) 0 (1/2500) 1000 [3]).1
      (by decide),
   (solver_fail_fast "adam" 1 (9/10) (999/1000) 0 (1/2500) 1000 [3]).2.1 rfl,
   (solver_fail_fast "sgd" 1 (9/10) (999/1000) 0 (1/2500) 1000 [3]).2.2 rfl⟩

/-- Helper: closed form for the number of batches the loop skeleton still
processes — the break test `if i >= epoch_size: break` runs after the body,
so from index `it ≤ epoch_size` the loop runs `epoch_size + 1 - it` more
times unless the loader is exhausted first. -/
theorem train_batch_loop_processed (es : ℕ) :
    ∀ (rem it n : ℕ), it ≤ es →
      (train_batch_loop es it rem n).2 = min rem (es + 1 - it) := by
  intro rem
  induction rem with
  | zero =>
    intro it n _
    simp [train_batch_loop]
  | succ r ih =>
    intro it n h
    by_cases hc : es ≤ it
    · simp only [train_batch_loop, if_pos hc]
      omega
    · simp only [train_batch_loop, if_neg hc]
      rw [ih (it + 1) (n + 1) (by omega)]
      omega

/-- Helper: the loop skeleton adds exactly its processed-batch count to
`n_iter`, one increment per processed batch. -/
theorem train_batch_loop_n_iter (es : ℕ) :
    ∀ (rem it n : ℕ),
      (train_batch_loop es it rem n).1 = n + (train_batch_loop es it rem n).2 := by
  intro rem
  induction rem with
  | zero =>
    intro it n
    simp [train_batch_loop]
  | succ r ih =>
    intro it n
    by_cases hc : es ≤ it
    · simp only [train_batch_loop, if_pos hc]
    · simp only [train_batch_loop, if_neg hc]
      rw [ih (it + 1) (n + 1)]
      omega

/-- C2 (amended form): one epoch of `train` processes exactly
`min(numBatches, epoch_size + 1)` batches, where `epoch_size` is the value
computed at main.py line 272 — the break fires only after the batch with
enumeration index `epoch_size` has been processed, so a capped epoch runs one
batch beyond the cap whenever the loader is long enough; with
`args.epoch_size = 0` the epoch processes the whole loader. -/
theorem epoch_batch_count (argsES nb : ℕ) :
    batches_processed argsES nb = min nb (epoch_size_of argsES nb + 1) ∧
    (argsES = 0 → batches_processed argsES nb = nb) := by
  have h1 : batches_processed argsES nb = min nb (epoch_size_of argsES nb + 1) := by
    unfold batches_processed
    rw [train_batch_loop_processed (epoch_size_of argsES nb) nb 0 0 (Nat.zero_le _)]
    omega
  refine ⟨h1, fun h0 => ?_⟩
  rw [h1]
  unfold epoch_size_of
  rw [if_pos h0]
  omega

/-- Witness for C2 applied at a zero configured epoch size and three loader
batches. -/
theorem epoch_batch_count_witness :
    batches_processed 0 3 = min 3 (epoch_size_of 0 3 + 1) ∧
    batches_processed 0 3 = 3 :=
  ⟨(epoch_batch_count 0 3).1, (epoch_batch_count 0 3).2 rfl⟩

/-- Counterexample to C2 as stated: with `args.epoch_size = 1` and a loader
holding 2 batches, the epoch processes 2 batches, not
`min(epoch_size, numBatches) = 1` — the off-by-one of the late break test. -/
theorem epoch_batch_count_claim_refuted :
    batches_processed 1 2 ≠ min (epoch_size_of 1 2) 2 := by
  decide

/-- C10: the global iteration counter starts at 0, each of the three training
variants advances it by exactly one per processed batch (the loop skeleton
adds its processed count to `n_iter`), and over any sequence of epochs the
counter equals the total number of training batches processed; `validate`
never touches it. -/
theorem n_iter_counts_batches (v : TrainVariant) (argsES : ℕ) (nbs : List ℕ)
    (es it rem n : ℕ) :
    (train_batch_loop es it rem n).1 = n + (train_batch_loop es it rem n).2 ∧
    (train_n_iter v argsES rem n).1 = n + batches_processed argsES rem ∧
    run_epochs_n_iter v argsES nbs n_iter_start
        = (nbs.map (batches_processed argsES)).sum := by
  have hvar : ∀ (nb m : ℕ), (train_n_iter v argsES nb m).1
      = m + batches_processed argsES nb := by
    intro nb m
    have h2 : ∀ k : ℕ,
        (train_batch_loop (epoch_size_of argsES nb) 0 nb k).2
          = min nb (epoch_size_of argsES nb + 1 - 0) := fun k =>
      train_batch_loop_processed (epoch_size_of argsES nb) nb 0 k (Nat.zero_le _)
    have hbp : batches_processed argsES nb
        = min nb (epoch_size_of argsES nb + 1 - 0) := h2 0
    cases v <;>
      simp only [train_n_iter, train_batch_loop_n_iter, h2, hbp]
  have hrun : ∀ (l : List ℕ) (m : ℕ),
      run_epochs_n_iter v argsES l m = m + (l.map (batches_processed argsES)).sum := by
    intro l
    induction l with
    | nil =>
      intro m
      simp [run_epochs_n_iter]
    | cons nb rest ih =>
      intro m
      rw [show run_epochs_n_iter v argsES (nb :: rest) m
            = run_epochs_n_iter v argsES rest (train_n_iter v argsES nb m).1 from rfl,
          ih, hvar, List.map_cons, List.sum_cons]
      omega
  refine ⟨train_batch_loop_n_iter es rem it n, hvar rem n, ?_⟩
  rw [hrun]
  simp [n_iter_start]

/-- Helper: a min-fold over a list is bounded by the seed and by every list
element. -/
theorem foldl_min_le (l : List ℚ) :
    ∀ a : ℚ, l.foldl min a ≤ a ∧ ∀ x ∈ l, l.foldl min a ≤ x := by
  induction l with
  | nil =>
    intro a
    exact ⟨le_refl a, fun x hx => absurd hx (List.not_mem_nil x)⟩
  | cons b t ih =>
    intro a
    rw [List.foldl_cons]
    refine ⟨le_trans (ih (min a b)).1 (min_le_left a b), fun x hx => ?_⟩
    rcases List.mem_cons.mp hx with hx | hx
    · subst hx
      exact le_trans (ih (min a x)).1 (min_le_right a x)
    · exact (ih (min a b)).2 x hx

/-- Helper: a min-fold over a list returns the seed or one of the elements. -/
theorem foldl_min_mem (l : List ℚ) :
    ∀ a : ℚ, l.foldl min a = a ∨ l.foldl min a ∈ l := by
  induction l with
  | nil =>
    intro a
    exact Or.inl rfl
  | cons b t ih =>
    intro a
    rw [List.foldl_cons]
    rcases ih (min a b) with h | h
    · rcases min_choice a b with hm | hm
      · exact Or.inl (h.trans hm)
      · exact Or.inr (List.mem_cons.mpr (Or.inl (h.trans hm)))
    · exact Or.inr (List.mem_cons.mpr (Or.inr h))

/-- Helper: once the running best is nonnegative, the checkpoint fold keeps
the running minimum in its first component, appends one persist event per
epoch, and marks best exactly per the prefix-minimum flags. -/
theorem checkpoint_run_phase (arch : String) (sd : List ℚ) (dv : ℚ) :
    ∀ (rest : List ℚ) (b : ℚ) (epoch : ℕ)
      (saved : List (CheckpointRecord × Bool)),
      0 ≤ b → (∀ x ∈ rest, 0 ≤ x) →
      (checkpoint_run arch sd dv epoch b rest saved).1 = rest.foldl min b ∧
      (checkpoint_run arch sd dv epoch b rest saved).2.map (fun rb => rb.2)
          = saved.map (fun rb => rb.2) ++ best_flags_from b rest ∧
      (checkpoint_run arch sd dv epoch b rest saved).2.length
          = saved.length + rest.length := by
  intro rest
  induction rest with
  | nil =>
    intro b epoch saved _ _
    refine ⟨rfl, ?_, rfl⟩
    simp [checkpoint_run, best_flags_from]
  | cons e t ih =>
    intro b epoch saved hb hr
    have hb1 : ¬ b < 0 := not_lt.mpr hb
    have hstep : checkpoint_run arch sd dv epoch b (e :: t) saved
        = checkpoint_run arch sd dv (epoch + 1) (min e b) t
            (save_checkpoint saved
              { epoch := epoch + 1, arch := arch, state_dict := sd,
                best_EPE := min e b, div_flow := dv }
              (decide (e < b))) := by
      simp only [checkpoint_run, checkpoint_step, if_neg hb1]
    have he : 0 ≤ e := hr e (List.mem_cons_self e t)
    have ht : ∀ x ∈ t, 0 ≤ x := fun x hx => hr x (List.mem_cons_of_mem e hx)
    have hmin : (0 : ℚ) ≤ min e b := le_min he hb
    obtain ⟨ih1, ih2, ih3⟩ := ih (min e b) (epoch + 1)
      (save_checkpoint saved
        { epoch := epoch + 1, arch := arch, state_dict := sd,
          best_EPE := min e b, div_flow := dv }
        (decide (e < b))) hmin ht
    refine ⟨?_, ?_, ?_⟩
    · rw [hstep, ih1, List.foldl_cons, min_comm b e]
    · rw [hstep, ih2, save_checkpoint, best_flags_from]
      simp [List.map_append, List.append_assoc]
    · rw [hstep, ih3, save_checkpoint]
      simp only [List.length_append, List.length_cons, List.length_nil]
      omega

/-- Helper: the first epoch adopts its EPE as the starting best (the global
starts at -1), is never marked best, and persists one record. -/
theorem checkpoint_run_start (arch : String) (sd : List ℚ) (dv : ℚ)
    (e : ℚ) (t : List ℚ) :
    checkpoint_run arch sd dv 0 best_EPE_start (e :: t) []
      = checkpoint_run arch sd dv 1 e t
          [({ epoch := 1, arch := arch, state_dict := sd, best_EPE := e,
              div_flow := dv }, false)] := by
  have hneg : best_EPE_start < 0 := by norm_num [best_EPE_start]
  have hflag : decide (e < e) = false := by simp
  simp only [checkpoint_run, checkpoint_step, if_pos hneg, hflag, min_self,
    save_checkpoint, List.nil_append]

/-- Helper: over a nonempty nonnegative EPE sequence, the final best of the
checkpoint fold is the minimum of the sequence. -/
theorem checkpoint_run_min (arch : String) (sd : List ℚ) (dv : ℚ)
    (e : ℚ) (t : List ℚ) (he : 0 ≤ e) (ht : ∀ x ∈ t, 0 ≤ x) :
    (checkpoint_run arch sd dv 0 best_EPE_start (e :: t) []).1 ∈ (e :: t) ∧
    ∀ x ∈ (e :: t), (checkpoint_run arch sd dv 0 best_EPE_start (e :: t) []).1 ≤ x := by
  rw [checkpoint_run_start]
  obtain ⟨h1, _, _⟩ := checkpoint_run_phase arch sd dv t e 1
    [({ epoch := 1, arch := arch, state_dict := sd, best_EPE := e,
        div_flow := dv }, false)] he ht
  rw [h1]
  constructor
  · rcases foldl_min_mem t e with h | h
    · rw [h]
      exact List.mem_cons_self e t
    · exact List.mem_cons_of_mem e h
  · intro x hx
    rcases List.mem_cons.mp hx with hx | hx
    · subst hx
      exact (foldl_min_le t x).1
    · exact (foldl_min_le t e).2 x hx

/-- C3 (amended form): a checkpoint record is persisted at every epoch end,
unconditionally; the duplicate marked best accompanies it exactly when the
epoch validation EPE strictly improves on the minimum over all earlier
epochs (never at the first epoch, whose EPE is adopted as the starting
best); and after the epochs consumed so far the stored best EPE is the
minimum validation EPE over them. -/
theorem checkpoint_persist_characterization (arch : String) (sd : List ℚ)
    (dv : ℚ) (epes : List ℚ) (h : ∀ e ∈ epes, 0 ≤ e) :
    (checkpoint_run arch sd dv 0 best_EPE_start epes []).2.length
        = epes.length ∧
    (checkpoint_run arch sd dv 0 best_EPE_start epes []).2.map (fun rb => rb.2)
        = best_flags_spec epes ∧
    (∀ k, k < epes.length →
      ((checkpoint_run arch sd dv 0 best_EPE_start (epes.take (k + 1)) []).1
          ∈ epes.take (k + 1) ∧
       ∀ e ∈ epes.take (k + 1),
         (checkpoint_run arch sd dv 0 best_EPE_start (epes.take (k + 1)) []).1
           ≤ e)) := by
  refine ⟨?_, ?_, ?_⟩
  · cases epes with
    | nil => rfl
    | cons e t =>
      have he : 0 ≤ e := h e (List.mem_cons_self e t)
      have ht : ∀ x ∈ t, 0 ≤ x := fun x hx => h x (List.mem_cons_of_mem e hx)
      rw [checkpoint_run_start]
      obtain ⟨_, _, h3⟩ := checkpoint_run_phase arch sd dv t e 1
        [({ epoch := 1, arch := arch, state_dict := sd, best_EPE := e,
            div_flow := dv }, false)] he ht
      rw [h3]
      simp only [List.length_cons, List.length_nil]
      omega
  · cases epes with
    | nil => rfl
    | cons e t =>
      have he : 0 ≤ e := h e (List.mem_cons_self e t)
      have ht : ∀ x ∈ t, 0 ≤ x := fun x hx => h x (List.mem_cons_of_mem e hx)
      rw [checkpoint_run_start]
      obtain ⟨_, h2, _⟩ := checkpoint_run_phase arch sd dv t e 1
        [({ epoch := 1, arch := arch, state_dict := sd, best_EPE := e,
            div_flow := dv }, false)] he ht
      rw [h2, best_flags_spec]
      rfl
  · intro k hk
    cases htk : epes.take (k + 1) with
    | nil =>
      exfalso
      have hlen := congrArg List.length htk
      rw [List.length_take, List.length_nil] at hlen
      omega
    | cons e t =>
      have hsub : ∀ x ∈ epes.take (k + 1), 0 ≤ x := fun x hx =>
        h x (List.take_subset (k + 1) epes hx)
      rw [htk] at hsub
      have he : 0 ≤ e := hsub e (List.mem_cons_self e t)
      have ht : ∀ x ∈ t, 0 ≤ x := fun x hx => hsub x (List.mem_cons_of_mem e hx)
      exact checkpoint_run_min arch sd dv e t he ht

/-- Witness for C3 at the concrete EPE sequence 3, 2, 4. -/
theorem checkpoint_persist_characterization_witness :
    (checkpoint_run "flownets" [] 20 0 best_EPE_start [3, 2, 4] []).2.length
        = ([3, 2, 4] : List ℚ).length ∧
    (checkpoint_run "flownets" [] 20 0 best_EPE_start [3, 2, 4] []).2.map
        (fun rb => rb.2) = best_flags_spec [3, 2, 4] ∧
    (∀ k, k < ([3, 2, 4] : List ℚ).length →
      ((checkpoint_run "flownets" [] 20 0 best_EPE_start
            (([3, 2, 4] : List ℚ).take (k + 1)) []).1
          ∈ ([3, 2, 4] : List ℚ).take (k + 1) ∧
       ∀ e ∈ ([3, 2, 4] : List ℚ).take (k + 1),
         (checkpoint_run "flownets" [] 20 0 best_EPE_start
             (([3, 2, 4] : List ℚ).take (k + 1)) []).1 ≤ e)) :=
  checkpoint_persist_characterization "flownets" [] 20 [3, 2, 4] (by norm_num)

/-- Counterexample to C3 as stated: after a single epoch with validation EPE
5, a checkpoint record has been persisted even though no epoch improved on
the best-seen value (the single persist event carries is_best = false), so
persistence is unconditional rather than exactly-on-improvement. -/
theorem checkpoint_unconditional_persist :
    (checkpoint_run "flownets" [] 20 0 best_EPE_start [5] []).2.map
        (fun rb => rb.2) = [false] ∧
    (checkpoint_run "flownets" [] 20 0 best_EPE_start [5] []).2.length = 1 := by
  constructor
  · rfl
  · rfl

end OpticalFlow
